import Mathlib

/-!
Verification of the fitness-tracker application (src/app.js).

The development shallowly embeds the two cores of the program:

* the Local Persistent Store and the daily-metrics merge logic
  (IndexedDB collections modelled as functions from the date key to an
  optional stored object; the JavaScript object-spread merge modelled
  field-wise on optional fields), and
* the Program Calendar (function getWeekAndDay together with the sentinel
  dispatch of renderTodayWorkout), with timestamps in milliseconds and
  JavaScript number arithmetic on exact rationals.

JavaScript numbers are modelled as rationals; a parsed numeric input is an
Option so that an empty or non-numeric input (NaN after parseInt or
parseFloat) is `none`; the handlers coerce it exactly where the source
does (the `|| 0` idiom).
-/

/-- Fields of a stored daily-metrics object.  A JavaScript object stores only
the properties that were actually spread into it, so every field is an
Option: `none` means the property is absent from the stored object. -/
structure DailyFields where
  steps : Option ℚ := none
  water : Option ℚ := none
  calories : Option ℚ := none
  protein : Option ℚ := none
  carbs : Option ℚ := none
  fat : Option ℚ := none
deriving DecidableEq, Repr

/-- Names of the six metric fields, used to state field-wise merge laws. -/
inductive FieldName where
  | steps | water | calories | protein | carbs | fat
deriving DecidableEq, Repr

/-- Project one named field out of a field record. -/
def DailyFields.get : DailyFields → FieldName → Option ℚ
  | f, .steps => f.steps
  | f, .water => f.water
  | f, .calories => f.calories
  | f, .protein => f.protein
  | f, .carbs => f.carbs
  | f, .fat => f.fat

/-- An object stored in the `dailyData` collection: `store.put({ date, ...data })`
stores the date property together with whatever fields were spread in
(src/app.js line 41). -/
structure StoredDaily where
  date : String
  fields : DailyFields
deriving DecidableEq, Repr

/-- An object stored in the `weights` collection: `store.put({ date, weight })`
(src/app.js line 63). -/
structure WeightSample where
  date : String
  weight : ℚ
deriving DecidableEq, Repr

/-- The persistent state of the application: the two IndexedDB object stores
`dailyData` and `weights`, both keyed by the `date` string (keyPath `date`),
plus a fault-injection flag for the backend: when `dailyReadFails` is set,
a `get` on the `dailyData` store rejects with the storage error, as an
IndexedDB request does on backend failure (src/app.js line 54). -/
@[ext]
structure AppDB where
  dailyData : String → Option StoredDaily
  weights : String → Option WeightSample
  dailyReadFails : Bool := false

/-- The database with both collections empty and a healthy backend. -/
def emptyDB : AppDB where
  dailyData := fun _ => none
  weights := fun _ => none
  dailyReadFails := false

/-- Function saveDailyData (src/app.js lines 36-45): `store.put({ date, ...data })`
on the `dailyData` store.  An IndexedDB `put` overwrites whatever record sat
at the key; the key is the object's `date` property. -/
def saveDailyData (date : String) (data : DailyFields) (db : AppDB) : AppDB :=
  { db with dailyData := fun k => if k = date then some ⟨date, data⟩ else db.dailyData k }

/-- Function getDailyData (src/app.js lines 47-56): `store.get(date)` on the
`dailyData` store; resolves with the stored object, or with undefined
(`none`) when the key is absent, and rejects with the error string when the
backend request fails. -/
def getDailyData (date : String) (db : AppDB) : Except String (Option StoredDaily) :=
  if db.dailyReadFails then Except.error "Error getting daily data"
  else Except.ok (db.dailyData date)

/-- Function saveWeight (src/app.js lines 58-67): `store.put({ date, weight })`
on the `weights` store. -/
def saveWeight (date : String) (weight : ℚ) (db : AppDB) : AppDB :=
  { db with weights := fun k => if k = date then some ⟨date, weight⟩ else db.weights k }

/-- JavaScript object-spread on one property: in `{ ...old, ...new }` the
right operand wins whenever it carries the property, and the left operand's
property is kept when the right operand lacks it. -/
def jsMergeOpt (old new : Option ℚ) : Option ℚ :=
  match new with
  | some v => some v
  | none => old

/-- JavaScript object-spread `{ ...old, ...new }` on the six metric fields. -/
def jsMerge (old new : DailyFields) : DailyFields where
  steps := jsMergeOpt old.steps new.steps
  water := jsMergeOpt old.water new.water
  calories := jsMergeOpt old.calories new.calories
  protein := jsMergeOpt old.protein new.protein
  carbs := jsMergeOpt old.carbs new.carbs
  fat := jsMergeOpt old.fat new.fat

/-- The fields stored at a date, with an absent record read as the empty
object, mirroring `await getDailyData(today) || {}` (src/app.js line 168). -/
def storedFields (db : AppDB) (date : String) : DailyFields :=
  match db.dailyData date with
  | some sd => sd.fields
  | none => {}

/-- The read-merge-write upsert of the Daily Metrics Aggregator: read the
existing record (absent read as `{}`), spread the incoming fields over it,
and put the merged object back.  This is the pattern of the saveMacros
click handler (src/app.js lines 168-169), with the set of fields present in
the incoming object left arbitrary instead of fixed to the four macros. -/
def upsertDaily (date : String) (pf : DailyFields) (db : AppDB) : AppDB :=
  saveDailyData date (jsMerge (storedFields db date) pf) db

/-- A storage operation issued by a click handler against the backend, used
to state that a refused save touches the store not at all. -/
inductive StoreOp where
  | readDaily (k : String)
  | writeDaily (k : String) (v : DailyFields)
deriving DecidableEq, Repr

/-- Whether a storage operation is a write. -/
def StoreOp.isWrite : StoreOp → Bool
  | .readDaily _ => false
  | .writeDaily _ _ => true

/-- The saveDailyData click handler (src/app.js lines 121-137): each of the
six inputs is parsed and coerced with `|| 0` (an empty or non-numeric
input, i.e. NaN, and an explicit 0 both coerce to 0), and the full
six-field object is written with a single blind `put`; nothing is read
first.  Each argument is the parsed value of one input, `none` for NaN. -/
def saveDailyClick (today : String)
    (stepsIn waterIn calIn proIn carIn fatIn : Option ℚ) (db : AppDB) : AppDB :=
  saveDailyData today
    { steps := some (stepsIn.getD 0)
      water := some (waterIn.getD 0)
      calories := some (calIn.getD 0)
      protein := some (proIn.getD 0)
      carbs := some (carIn.getD 0)
      fat := some (fatIn.getD 0) } db

/-- The saveWeight click handler (src/app.js lines 141-155): the input is
parsed with parseFloat (`none` for NaN) and the save runs only under
`weight > 0`; NaN compares false, so a non-numeric input is refused just
like zero and negative values. -/
def saveWeightClick (today : String) (weightIn : Option ℚ) (db : AppDB) : AppDB :=
  match weightIn with
  | some w => if w > 0 then saveWeight today w db else db
  | none => db

/-- The saveMacros click handler (src/app.js lines 157-178), returning the
resulting database together with the trace of storage operations it
issued.  The four inputs are parsed and coerced with `|| 0`; under
`if (calories || protein || carbs || fat)` (some coerced value non-zero)
the handler reads the existing record (`|| {}` for absent), writes
`{ ...existingData, calories, protein, carbs, fat }`, and on a rejected
read the catch block gives up without writing; otherwise it only alerts. -/
def saveMacrosClick (today : String)
    (calIn proIn carIn fatIn : Option ℚ) (db : AppDB) : AppDB × List StoreOp :=
  let calories := calIn.getD 0
  let protein := proIn.getD 0
  let carbs := carIn.getD 0
  let fat := fatIn.getD 0
  if calories ≠ 0 ∨ protein ≠ 0 ∨ carbs ≠ 0 ∨ fat ≠ 0 then
    match getDailyData today db with
    | Except.error _ => (db, [StoreOp.readDaily today])
    | Except.ok r =>
      let existing : DailyFields := match r with
        | some sd => sd.fields
        | none => {}
      let merged : DailyFields :=
        { existing with
          calories := some calories
          protein := some protein
          carbs := some carbs
          fat := some fat }
      (saveDailyData today merged db, [StoreOp.readDaily today, StoreOp.writeDaily today merged])
  else
    (db, [])

/-- Milliseconds in a day, the divisor `1000 * 60 * 60 * 24` of
src/app.js line 285. -/
def msPerDay : ℤ := 1000 * 60 * 60 * 24

/-- The value returned by getWeekAndDay: a week and day coordinate, with the
extra message property that the source attaches only to the not-started
sentinel object (src/app.js line 281). -/
structure WeekDay where
  week : ℤ
  day : ℤ
  message : Option String := none
deriving DecidableEq, Repr

/-- Ceiling division of integers, modelling `Math.ceil(a / b)` computed on
the exact quotient, for a positive divisor.  Lean's integer division is
Euclidean, hence floors for a positive divisor, so the smallest integer at
least `a / b` is `-((-a) / b)`; the lemma ceilDiv_eq_ceil below certifies
this against the mathematical ceiling of the rational quotient. -/
def ceilDiv (a b : ℤ) : ℤ := -(-a / b)

/-- Function getWeekAndDay (src/app.js lines 274-291) on the two timestamps
after their `setHours(0, 0, 0, 0)` normalisation, in milliseconds: before
the start it returns the week 0 / day 0 sentinel carrying the message;
otherwise `diffDays = Math.ceil(Math.abs(today - startDate) / msPerDay)`,
`week = Math.floor(diffDays / 7) + 1` and `day = diffDays % 7 + 1` (the
quantities are non-negative, so Lean's Euclidean `/` and `%` agree with
the floor and the JavaScript remainder). -/
def getWeekAndDay (todayMs startMs : ℤ) : WeekDay :=
  if todayMs < startMs then
    { week := 0, day := 0, message := some "Program hasn\x27t started yet!" }
  else
    let diffTime : ℤ := |todayMs - startMs|
    let diffDays : ℤ := ceilDiv diffTime msPerDay
    { week := diffDays / 7 + 1, day := diffDays % 7 + 1 }

/-- Outcome of renderTodayWorkout (src/app.js lines 296-326), abstracted
over the workout entry type: the combined completed-or-not-started branch
taken before any plan lookup (it reports the week and day numbers only),
a found workout, the no-specific-workout message inside a found week, or
the missing-week message. -/
inductive TodayOutcome (W : Type) where
  | sentinel (week day : ℤ)
  | workout (week day : ℤ) (w : W)
  | restDay (week day : ℤ)
  | noWeekData (week : ℤ)
deriving DecidableEq, Repr

/-- Function renderTodayWorkout (src/app.js lines 296-326) with the static
WORKOUT_PLAN table passed in as a two-level lookup (week, then day): the
guard `week > 26 || week === 0` short-circuits to the sentinel branch
before the table is consulted; otherwise `WORKOUT_PLAN[week]` and then
`currentWeekPlan[day]` are looked up. -/
def renderTodayWorkout {W : Type} (plan : ℤ → Option (ℤ → Option W))
    (todayMs startMs : ℤ) : TodayOutcome W :=
  let wd := getWeekAndDay todayMs startMs
  if wd.week > 26 ∨ wd.week = 0 then
    TodayOutcome.sentinel wd.week wd.day
  else
    match plan wd.week with
    | some weekPlan =>
      match weekPlan wd.day with
      | some w => TodayOutcome.workout wd.week wd.day w
      | none => TodayOutcome.restDay wd.week wd.day
    | none => TodayOutcome.noWeekData wd.week

/-- The integer ceiling division agrees with the mathematical ceiling of the
exact rational quotient for a positive divisor, so ceilDiv is a faithful
model of `Math.ceil(a / b)`. -/
theorem ceilDiv_eq_ceil (a b : ℤ) (hb : 0 < b) :
    ceilDiv a b = ⌈(a : ℚ) / (b : ℚ)⌉ := by
  obtain ⟨d, rfl⟩ : ∃ d : ℕ, (d : ℤ) = b := ⟨b.toNat, Int.toNat_of_nonneg hb.le⟩
  have h1 : (a : ℚ) / (((d : ℤ) : ℚ)) = -(((-a : ℤ) : ℚ) / ((d : ℕ) : ℚ)) := by
    push_cast
    ring
  rw [h1, Int.ceil_neg, Rat.floor_intCast_div_natCast]
  rfl

/-- Projecting a named field out of a JavaScript spread merges the two
projections. -/
theorem jsMerge_get (a b : DailyFields) (φ : FieldName) :
    (jsMerge a b).get φ = jsMergeOpt (a.get φ) (b.get φ) := by
  cases φ <;> rfl

/-- Spreading the same fields twice is the same as spreading them once. -/
theorem jsMergeOpt_absorb (o n : Option ℚ) :
    jsMergeOpt (jsMergeOpt o n) n = jsMergeOpt o n := by
  cases n <;> rfl

/-- The record an upsert leaves at its own key holds the spread of the
previously stored fields under the incoming ones. -/
theorem storedFields_upsert (d : String) (pf : DailyFields) (db : AppDB) :
    storedFields (upsertDaily d pf db) d = jsMerge (storedFields db d) pf := by
  simp [storedFields, upsertDaily, saveDailyData]

/-- C2: for every current date on or after the program start date, with both
normalised to midnight, the computed coordinate satisfies
`week = floor(diffDays / 7) + 1` and `day = diffDays % 7 + 1` where
`diffDays` is the ceiling of the absolute elapsed time measured in whole
days; on timestamps that are whole multiples of a day the difference is
exact, so the start date itself maps to week 1 day 1 and the start date
plus seven days maps to week 2 day 1. -/
theorem getWeekAndDay_onOrAfter_formula :
    (∀ t s : ℤ, s ≤ t →
      getWeekAndDay t s =
        { week := ⌈((t - s : ℤ) : ℚ) / (msPerDay : ℚ)⌉ / 7 + 1,
          day := ⌈((t - s : ℤ) : ℚ) / (msPerDay : ℚ)⌉ % 7 + 1 }) ∧
    (∀ t s : ℤ, s ≤ t →
      getWeekAndDay (t * msPerDay) (s * msPerDay) =
        { week := (t - s) / 7 + 1, day := (t - s) % 7 + 1 }) ∧
    (∀ s : ℤ, getWeekAndDay (s * msPerDay) (s * msPerDay) = { week := 1, day := 1 }) ∧
    (∀ s : ℤ, getWeekAndDay ((s + 7) * msPerDay) (s * msPerDay) = { week := 2, day := 1 }) := by
  have hD : (0 : ℤ) < msPerDay := by norm_num [msPerDay]
  have key : ∀ t s : ℤ, s ≤ t →
      getWeekAndDay (t * msPerDay) (s * msPerDay) =
        { week := (t - s) / 7 + 1, day := (t - s) % 7 + 1 } := by
    intro t s h
    have hle : s * msPerDay ≤ t * msPerDay := mul_le_mul_of_nonneg_right h hD.le
    have habs : |t * msPerDay - s * msPerDay| = (t - s) * msPerDay := by
      rw [abs_of_nonneg (by linarith)]
      ring
    have hceil : ceilDiv ((t - s) * msPerDay) msPerDay = t - s := by
      unfold ceilDiv
      rw [show -((t - s) * msPerDay) = -(t - s) * msPerDay by ring,
        Int.mul_ediv_cancel _ hD.ne.symm, neg_neg]
    simp only [getWeekAndDay, if_neg (not_lt.mpr hle), habs, hceil]
  refine ⟨?_, key, ?_, ?_⟩
  · intro t s h
    have habs : |t - s| = t - s := abs_of_nonneg (by linarith)
    simp only [getWeekAndDay, if_neg (not_lt.mpr h), habs,
      ceilDiv_eq_ceil (t - s) msPerDay hD]
  · intro s
    simpa using key s s le_rfl
  · intro s
    simpa using key (s + 7) s (by linarith)

/-- C3: for every current date strictly before the program start date, the
calendar returns the not-started sentinel with week 0 and day 0 and its
message, and the today view takes the sentinel branch for every possible
curriculum table, so no curriculum entry is looked up. -/
theorem notStarted_sentinel :
    ∀ (W : Type) (plan : ℤ → Option (ℤ → Option W)) (t s : ℤ), t < s →
      getWeekAndDay t s =
        { week := 0, day := 0, message := some "Program hasn\x27t started yet!" } ∧
      renderTodayWorkout plan t s = TodayOutcome.sentinel 0 0 := by
  intro W plan t s h
  have h1 : getWeekAndDay t s =
      { week := 0, day := 0, message := some "Program hasn\x27t started yet!" } := by
    simp only [getWeekAndDay, if_pos h]
  refine ⟨h1, ?_⟩
  simp only [renderTodayWorkout, h1]
  norm_num

/-- C4: whenever the computed week exceeds the 26 weeks of the program, the
today view resolves to the completed-or-not-started sentinel carrying that
coordinate, for every possible curriculum table — the guard fires before
the table is consulted, whether or not an entry exists there. -/
theorem completed_sentinel :
    ∀ (W : Type) (plan : ℤ → Option (ℤ → Option W)) (t s : ℤ),
      26 < (getWeekAndDay t s).week →
      renderTodayWorkout plan t s =
        TodayOutcome.sentinel (getWeekAndDay t s).week (getWeekAndDay t s).day := by
  intro W plan t s h
  simp only [renderTodayWorkout, if_pos (Or.inl h)]

/-- A curriculum table that does carry an entry at week 27 day 1, used to
exercise the completed sentinel at a coordinate that exists in the table. -/
def plan27 : ℤ → Option (ℤ → Option String) :=
  fun w => if w = 27 then some (fun d => if d = 1 then some "Strength" else none) else none

/-- Witness for C2: day 3 against day 1 as start, two days elapsed. -/
theorem getWeekAndDay_onOrAfter_formula_witness :
    (1 : ℤ) ≤ 3 ∧
    getWeekAndDay (3 * msPerDay) (1 * msPerDay) =
      { week := (3 - 1 : ℤ) / 7 + 1, day := (3 - 1 : ℤ) % 7 + 1 } :=
  ⟨by decide, getWeekAndDay_onOrAfter_formula.2.1 3 1 (by decide)⟩

/-- Witness for C3: the day before the start date, against a table with an
entry at every coordinate. -/
theorem notStarted_sentinel_witness :
    (0 : ℤ) < msPerDay ∧
    getWeekAndDay 0 msPerDay =
      { week := 0, day := 0, message := some "Program hasn\x27t started yet!" } ∧
    renderTodayWorkout (fun _ => some (fun _ => some "Strength")) 0 msPerDay =
      TodayOutcome.sentinel 0 0 :=
  ⟨by decide,
    notStarted_sentinel String (fun _ => some (fun _ => some "Strength")) 0 msPerDay (by decide)⟩

/-- Witness for C4: 182 elapsed days put the date in week 27, and the table
plan27 does carry an entry at week 27 day 1, yet the sentinel is returned. -/
theorem completed_sentinel_witness :
    26 < (getWeekAndDay (182 * msPerDay) 0).week ∧
    renderTodayWorkout plan27 (182 * msPerDay) 0 =
      TodayOutcome.sentinel (getWeekAndDay (182 * msPerDay) 0).week
        (getWeekAndDay (182 * msPerDay) 0).day :=
  ⟨by decide, completed_sentinel String plan27 (182 * msPerDay) 0 (by decide)⟩

/-- C5: the weight save is refused outright — database unchanged — when the
parsed input is NaN, zero, or negative, and a strictly positive weight is
stored in the weights collection keyed by the date. -/
theorem saveWeight_validation :
    (∀ (t : String) (db : AppDB), saveWeightClick t none db = db) ∧
    (∀ (t : String) (w : ℚ) (db : AppDB), w ≤ 0 → saveWeightClick t (some w) db = db) ∧
    (∀ (t : String) (w : ℚ) (db : AppDB), 0 < w →
      (saveWeightClick t (some w) db).weights t = some ⟨t, w⟩) := by
  refine ⟨fun t db => rfl, ?_, ?_⟩
  · intro t w db h
    simp [saveWeightClick, not_lt.mpr h]
  · intro t w db h
    simp [saveWeightClick, h, saveWeight]

/-- Witness for C5: a negative weight is refused on the empty database and a
positive weight is stored. -/
theorem saveWeight_validation_witness :
    ((-1 : ℚ) ≤ 0 ∧ saveWeightClick "2025-07-07" (some (-1)) emptyDB = emptyDB) ∧
    ((0 : ℚ) < 70 ∧
      (saveWeightClick "2025-07-07" (some 70) emptyDB).weights "2025-07-07" =
        some ⟨"2025-07-07", 70⟩) :=
  ⟨⟨by decide, saveWeight_validation.2.1 "2025-07-07" (-1) emptyDB (by decide)⟩,
   ⟨by decide, saveWeight_validation.2.2 "2025-07-07" 70 emptyDB (by decide)⟩⟩

/-- C6: when the initial read of the existing record rejects with the
storage error, the macros upsert aborts: the database is returned
unchanged — in particular the record at the date is untouched — and the
operation trace contains no write. -/
theorem upsert_aborts_on_read_error :
    ∀ (t : String) (calIn proIn carIn fatIn : Option ℚ) (db : AppDB),
      db.dailyReadFails = true →
      (saveMacrosClick t calIn proIn carIn fatIn db).1 = db ∧
      ∀ op ∈ (saveMacrosClick t calIn proIn carIn fatIn db).2, op.isWrite = false := by
  intro t c p r f db h
  unfold saveMacrosClick
  simp only [getDailyData, h, if_true]
  split
  · simp [StoreOp.isWrite]
  · simp

/-- A database whose backend rejects every read on the dailyData store. -/
def failDB : AppDB where
  dailyData := fun _ => none
  weights := fun _ => none
  dailyReadFails := true

/-- Witness for C6: a non-zero calories input against the failing backend
leaves the database unchanged and writes nothing. -/
theorem upsert_aborts_on_read_error_witness :
    failDB.dailyReadFails = true ∧
    ((saveMacrosClick "2025-01-06" (some 100) none none none failDB).1 = failDB ∧
      ∀ op ∈ (saveMacrosClick "2025-01-06" (some 100) none none none failDB).2,
        op.isWrite = false) :=
  ⟨rfl, upsert_aborts_on_read_error "2025-01-06" (some 100) none none none failDB rfl⟩

/-- C7: saving a record through the dashboard save handler with 5000 in the
steps input and every other input empty, on a date with no prior record,
then reading that date back, returns the full record with the date, the
steps, and every omitted field present and equal to zero. -/
theorem saveDaily_then_get_full_record :
    ∀ (d : String) (db : AppDB), db.dailyData d = none → db.dailyReadFails = false →
      getDailyData d (saveDailyClick d (some 5000) none none none none none db) =
        Except.ok (some ⟨d,
          { steps := some 5000, water := some 0, calories := some 0,
            protein := some 0, carbs := some 0, fat := some 0 }⟩) := by
  intro d db _ hflag
  simp [getDailyData, saveDailyClick, saveDailyData, hflag]

/-- Witness for C7: the concrete run on the empty database and the date
2025-01-01 named by the specification. -/
theorem saveDaily_then_get_full_record_witness :
    emptyDB.dailyData "2025-01-01" = none ∧ emptyDB.dailyReadFails = false ∧
    getDailyData "2025-01-01"
      (saveDailyClick "2025-01-01" (some 5000) none none none none none emptyDB) =
      Except.ok (some ⟨"2025-01-01",
        { steps := some 5000, water := some 0, calories := some 0,
          protein := some 0, carbs := some 0, fat := some 0 }⟩) :=
  ⟨rfl, rfl, saveDaily_then_get_full_record "2025-01-01" emptyDB rfl rfl⟩

/-- C10: when all four macro inputs parse to zero or are absent, the macros
click handler refuses before reaching the store: it issues no storage
operation at all and the database is unchanged. -/
theorem macros_noop_when_all_zero :
    ∀ (t : String) (calIn proIn carIn fatIn : Option ℚ) (db : AppDB),
      calIn.getD 0 = 0 → proIn.getD 0 = 0 → carIn.getD 0 = 0 → fatIn.getD 0 = 0 →
      saveMacrosClick t calIn proIn carIn fatIn db = (db, []) := by
  intro t c p r f db h1 h2 h3 h4
  simp [saveMacrosClick, h1, h2, h3, h4]

/-- Putting the same object twice at the same key is the same as putting it
once. -/
theorem saveDailyData_put_put (d : String) (v : DailyFields) (db : AppDB) :
    saveDailyData d v (saveDailyData d v db) = saveDailyData d v db := by
  refine AppDB.ext ?_ rfl rfl
  funext k
  by_cases hk : k = d <;> simp [saveDailyData, hk]

/-- The read-spread-write upsert is idempotent. -/
theorem upsertDaily_idem (d : String) (pf : DailyFields) (db : AppDB) :
    upsertDaily d pf (upsertDaily d pf db) = upsertDaily d pf db := by
  have habs : jsMerge (jsMerge (storedFields db d) pf) pf = jsMerge (storedFields db d) pf := by
    simp [jsMerge, jsMergeOpt_absorb]
  show saveDailyData d (jsMerge (storedFields (upsertDaily d pf db) d) pf)
      (upsertDaily d pf db) = upsertDaily d pf db
  rw [storedFields_upsert, habs]
  exact saveDailyData_put_put d _ db

/-- Grounding of upsertDaily in the source: on a healthy backend, whenever
the some-input-non-zero guard lets the saveMacros handler through, the
database it produces is exactly the upsert of the four coerced macro
values (with steps and water absent from the incoming fields). -/
theorem saveMacrosClick_fst_eq_upsert (t : String) (c p r f : Option ℚ) (db : AppDB)
    (hflag : db.dailyReadFails = false)
    (hcond : c.getD 0 ≠ 0 ∨ p.getD 0 ≠ 0 ∨ r.getD 0 ≠ 0 ∨ f.getD 0 ≠ 0) :
    (saveMacrosClick t c p r f db).1 =
      upsertDaily t
        { calories := some (c.getD 0), protein := some (p.getD 0),
          carbs := some (r.getD 0), fat := some (f.getD 0) } db := by
  unfold saveMacrosClick
  simp only [getDailyData, hflag, Bool.false_eq_true, if_false, if_pos hcond]
  cases hdb : db.dailyData t <;>
    simp [upsertDaily, storedFields, jsMerge, jsMergeOpt, hdb]

/-- Witness for C10: all four inputs empty on the empty database. -/
theorem macros_noop_when_all_zero_witness :
    (none : Option ℚ).getD 0 = 0 ∧
    saveMacrosClick "2025-01-04" none none none none emptyDB = (emptyDB, []) :=
  ⟨rfl, macros_noop_when_all_zero "2025-01-04" none none none none emptyDB rfl rfl rfl rfl⟩

/-- C1: the upsert merges field-wise — every field present in the incoming
object overwrites the stored field, every field absent from the incoming
object keeps the previously stored value — and in particular upserting
steps 10 and then water 2 on the same date leaves a record carrying both
steps 10 and water 2. -/
theorem upsert_merges_fieldwise :
    (∀ (d : String) (pf : DailyFields) (db : AppDB) (φ : FieldName) (v : ℚ),
      pf.get φ = some v → (storedFields (upsertDaily d pf db) d).get φ = some v) ∧
    (∀ (d : String) (pf : DailyFields) (db : AppDB) (φ : FieldName),
      pf.get φ = none →
      (storedFields (upsertDaily d pf db) d).get φ = (storedFields db d).get φ) ∧
    (∀ (d : String) (db : AppDB),
      (storedFields (upsertDaily d { water := some 2 }
        (upsertDaily d { steps := some 10 } db)) d).steps = some 10 ∧
      (storedFields (upsertDaily d { water := some 2 }
        (upsertDaily d { steps := some 10 } db)) d).water = some 2) := by
  refine ⟨?_, ?_, ?_⟩
  · intro d pf db φ v h
    rw [storedFields_upsert, jsMerge_get, h]
    rfl
  · intro d pf db φ h
    rw [storedFields_upsert, jsMerge_get, h]
    rfl
  · intro d db
    constructor <;> simp [storedFields_upsert, jsMerge, jsMergeOpt]

/-- Witness for C1: upserting only steps on the empty database stores the
given steps value. -/
theorem upsert_merges_fieldwise_witness :
    DailyFields.get { steps := some 10 } FieldName.steps = some 10 ∧
    (storedFields (upsertDaily "2025-01-05" { steps := some 10 } emptyDB)
      "2025-01-05").get FieldName.steps = some 10 :=
  ⟨rfl, upsert_merges_fieldwise.1 "2025-01-05" { steps := some 10 } emptyDB
    FieldName.steps 10 rfl⟩

/-- C8: performing the same upsert twice in sequence leaves the same stored
state as performing it once, both for the read-spread-write upsert and for
the saveMacros click handler that realises it. -/
theorem upsert_idempotent :
    (∀ (d : String) (pf : DailyFields) (db : AppDB),
      upsertDaily d pf (upsertDaily d pf db) = upsertDaily d pf db) ∧
    (∀ (t : String) (c p r f : Option ℚ) (db : AppDB),
      (saveMacrosClick t c p r f ((saveMacrosClick t c p r f db).1)).1 =
        (saveMacrosClick t c p r f db).1) := by
  refine ⟨upsertDaily_idem, ?_⟩
  intro t c p r f db
  by_cases hcond : c.getD 0 ≠ 0 ∨ p.getD 0 ≠ 0 ∨ r.getD 0 ≠ 0 ∨ f.getD 0 ≠ 0
  · cases hflag : db.dailyReadFails
    · have h1 := saveMacrosClick_fst_eq_upsert t c p r f db hflag hcond
      have h2 : ((saveMacrosClick t c p r f db).1).dailyReadFails = false := by
        rw [h1]
        exact hflag
      rw [saveMacrosClick_fst_eq_upsert t c p r f _ h2 hcond, h1, upsertDaily_idem]
    · have h1 : (saveMacrosClick t c p r f db).1 = db := by
        unfold saveMacrosClick
        simp only [getDailyData, hflag, if_true, if_pos hcond]
      rw [h1]
      exact h1
  · push_neg at hcond
    obtain ⟨h1, h2, h3, h4⟩ := hcond
    have hnoop : ∀ x : AppDB, saveMacrosClick t c p r f x = (x, []) := by
      intro x
      simp [saveMacrosClick, h1, h2, h3, h4]
    rw [hnoop, hnoop]

/-- C9: an upsert at one date leaves the record at every other date in the
dailyData collection, and the whole weights collection, unchanged. -/
theorem upsert_frame :
    ∀ (d1 : String) (pf : DailyFields) (db : AppDB),
      (∀ k, k ≠ d1 → (upsertDaily d1 pf db).dailyData k = db.dailyData k) ∧
      (upsertDaily d1 pf db).weights = db.weights := by
  intro d1 pf db
  constructor
  · intro k hk
    simp [upsertDaily, saveDailyData, hk]
  · rfl

/-- Witness for C9: an upsert at 2025-01-01 does not touch the record at
2025-01-02. -/
theorem upsert_frame_witness :
    ("2025-01-02" : String) ≠ "2025-01-01" ∧
    (upsertDaily "2025-01-01" { steps := some 10 } emptyDB).dailyData "2025-01-02" =
      emptyDB.dailyData "2025-01-02" :=
  ⟨by decide,
    (upsert_frame "2025-01-01" { steps := some 10 } emptyDB).1 "2025-01-02" (by decide)⟩
